import Mathlib

/-!
Shallow embedding of the ledger & settlement engine of the 3d.iego-app
repository (src/lib/db.py, src/views/cuentas.py, src/views/detalle_revendedor.py).

Modelling conventions:
* SQLite tables become Lean lists of records, in insertion (rowid) order;
  AUTOINCREMENT ids become explicit `next_*_id` counters on the state.
* SQLite REAL money amounts are modelled as exact rationals (the spec treats
  all monetary values as decimal currency amounts).
* `datetime.now()` is passed in explicitly as a `today : String` argument.
* Fallible Python functions (those that `raise ValueError`) return `Except`.
-/

/-- Row of the `movimientos` table (lib/db.py DDL). -/
structure Movimiento where
  id : Nat
  rev_id : Nat
  fecha : String
  tipo : String
  detalle : String
  cantidad : Int
  monto : ℚ
  medio_pago : Option String
  entrega_nro : Option Nat
deriving Repr, DecidableEq

/-- Row of the `entregas` table (lib/db.py DDL_ENTREGAS). -/
structure Entrega where
  id : Nat
  entrega_nro : Nat
  rev_id : Option Nat
  cliente : Option String
  fecha : String
  total : ℚ
  mov_id : Option Nat
deriving Repr, DecidableEq

/-- Row of the `entrega_items` table (lib/db.py DDL_ENTREGAS). -/
structure EntregaItem where
  id : Nat
  entrega_id : Nat
  pieza : String
  cantidad : Int
  precio : ℚ
  total : ℚ
deriving Repr, DecidableEq

/-- Row of the `payment_splits` table (views/cuentas.py DDL_SPLITS). -/
structure PaymentSplit where
  id : Nat
  mov_id : Nat
  part_amount : ℚ
  cost_divisor : Int
  mark_paid : Bool
deriving Repr, DecidableEq

/-- Row of the `expenses` table (views/cuentas.py DDL_EXPENSES). -/
structure Expense where
  id : Nat
  fecha : String
  concepto : String
  monto : ℚ
deriving Repr, DecidableEq

/-- Row of the `partner_payouts` table (views/cuentas.py DDL_PAYOUTS). -/
structure PartnerPayout where
  id : Nat
  fecha : String
  monto : ℚ
  nota : String
deriving Repr, DecidableEq

/-- The whole SQLite database state. -/
structure DB where
  movimientos : List Movimiento
  entregas : List Entrega
  entrega_items : List EntregaItem
  payment_splits : List PaymentSplit
  expenses : List Expense
  partner_payouts : List PartnerPayout
  next_mov_id : Nat
  next_entrega_id : Nat
  next_item_id : Nat
  next_split_id : Nat
deriving Repr, DecidableEq

/-- The empty database, with AUTOINCREMENT counters at 1 (SQLite rowids start at 1). -/
def DB.empty : DB := ⟨[], [], [], [], [], [], 1, 1, 1, 1⟩

/-- lib/db.py `get_balance`: `sum(monto WHERE tipo='pago')` minus
`sum(monto WHERE tipo IN ('devolucion','entrega'))`, both restricted to the
reseller, with `COALESCE(...,0)` giving 0 on empty sets. -/
def get_balance (d : DB) (rev_id : Nat) : ℚ :=
  let pagos :=
    ((d.movimientos.filter fun m => decide (m.rev_id = rev_id ∧ m.tipo = "pago")).map
      (·.monto)).sum
  let restas :=
    ((d.movimientos.filter fun m =>
        decide (m.rev_id = rev_id ∧ (m.tipo = "devolucion" ∨ m.tipo = "entrega"))).map
      (·.monto)).sum
  pagos - restas

/-- Python `str.lower()` on one character (ASCII, as the inputs here are). -/
def py_lower_char (c : Char) : Char :=
  if 'A' ≤ c ∧ c ≤ 'Z' then Char.ofNat (c.toNat + 32) else c

/-- Python `str.lower()`. -/
def py_lower (s : String) : String := ⟨s.data.map py_lower_char⟩

/-- The whitespace stripped by Python `str.strip()`. -/
def is_space_char (c : Char) : Bool :=
  decide (c = ' ' ∨ c = '\t' ∨ c = '\n' ∨ c = '\r')

/-- Python `str.strip()`: drop leading and trailing whitespace. -/
def py_strip (s : String) : String :=
  ⟨((s.data.dropWhile is_space_char).reverse.dropWhile is_space_char).reverse⟩

/-- lib/db.py `add_movimiento`: validates the kind, defaults the date to today,
strips the description, and inserts the row with `int(cantidad)` and
`float(monto)` unchanged. -/
def add_movimiento (today : String) (d : DB) (rev_id : Nat) (tipo : String)
    (detalle : String) (cantidad : Int) (monto : ℚ) (fecha : Option String)
    (medio_pago : Option String) (entrega_nro : Option Nat) : Except String DB :=
  let tipo := py_strip (py_lower tipo)
  if ¬(tipo = "pago" ∨ tipo = "devolucion" ∨ tipo = "entrega") then
    .error "Tipo inválido"
  else
    let fecha := fecha.getD today
    .ok { d with
      movimientos := d.movimientos ++
        [⟨d.next_mov_id, rev_id, fecha, tipo, py_strip detalle, cantidad, monto,
          medio_pago, entrega_nro⟩],
      next_mov_id := d.next_mov_id + 1 }

/-- lib/db.py `update_movimiento`: validates the kind, then overwrites the row
in place with `int(cantidad)` and `float(monto)` unchanged. -/
def update_movimiento (d : DB) (mov_id : Nat) (fecha : String) (tipo : String)
    (detalle : String) (cantidad : Int) (monto : ℚ)
    (medio_pago : Option String) : Except String DB :=
  let tipo := py_strip (py_lower tipo)
  if ¬(tipo = "pago" ∨ tipo = "devolucion" ∨ tipo = "entrega") then
    .error "Tipo inválido"
  else
    .ok { d with
      movimientos := d.movimientos.map fun m =>
        if m.id = mov_id then
          { m with fecha := fecha, tipo := tipo, detalle := py_strip detalle,
                   cantidad := cantidad, monto := monto, medio_pago := medio_pago }
        else m }

/-- views/detalle_revendedor.py `_monto_con_signo`: for kind 'devolucion' the
amount is stored negative, for every other kind positive. -/
def monto_con_signo (tipo : String) (monto : ℚ) : ℚ :=
  if py_lower (py_strip tipo) = "devolucion" then -|monto| else |monto|

/-- C1 helper: the sum over a disjunctive filter splits into the two sums. -/
theorem sum_filter_tipo_or (l : List Movimiento) (rid : Nat) :
    ((l.filter fun m =>
        decide (m.rev_id = rid ∧ (m.tipo = "devolucion" ∨ m.tipo = "entrega"))).map
      (·.monto)).sum
      = ((l.filter fun m => decide (m.rev_id = rid ∧ m.tipo = "devolucion")).map
          (·.monto)).sum
        + ((l.filter fun m => decide (m.rev_id = rid ∧ m.tipo = "entrega")).map
            (·.monto)).sum := by
  induction l with
  | nil => simp
  | cons m t ih =>
    by_cases h1 : m.rev_id = rid
    · by_cases h2 : m.tipo = "devolucion"
      · have h3 : ¬ m.tipo = "entrega" := by rw [h2]; decide
        simp only [List.filter_cons, Bool.decide_and, Bool.decide_or] at ih ⊢
        simp [h1, h2, h3, ih]
        ring
      · by_cases h3 : m.tipo = "entrega"
        · simp only [List.filter_cons, Bool.decide_and, Bool.decide_or] at ih ⊢
          simp [h1, h2, h3, ih]
          ring
        · simp only [List.filter_cons, Bool.decide_and, Bool.decide_or] at ih ⊢
          simp [h1, h2, h3, ih]
    · simp only [List.filter_cons, Bool.decide_and, Bool.decide_or] at ih ⊢
      simp [h1, ih]

/-- C1: for every reseller, `get_balance` equals Σ payment amounts minus
Σ return amounts minus Σ delivery-debit amounts, over the reseller's stored
movements, and the value is invariant under any permutation of the movement
list (so it does not depend on insertion order). -/
theorem get_balance_spec (d : DB) (rid : Nat) :
    (get_balance d rid
      = ((d.movimientos.filter fun m => decide (m.rev_id = rid ∧ m.tipo = "pago")).map
          (·.monto)).sum
        - ((d.movimientos.filter fun m => decide (m.rev_id = rid ∧ m.tipo = "devolucion")).map
            (·.monto)).sum
        - ((d.movimientos.filter fun m => decide (m.rev_id = rid ∧ m.tipo = "entrega")).map
            (·.monto)).sum)
    ∧ ∀ movs' : List Movimiento, d.movimientos.Perm movs' →
        get_balance { d with movimientos := movs' } rid = get_balance d rid := by
  constructor
  · rw [get_balance, sum_filter_tipo_or]
    ring
  · intro movs' hp
    simp only [get_balance]
    rw [((hp.filter _).map _).sum_eq, ((hp.filter _).map _).sum_eq]

/-- Concrete movements used by the C1 witness. -/
def mw1 : Movimiento := ⟨1, 7, "2025-01-02", "pago", "p", 0, 5000, some "MP", none⟩

def mw2 : Movimiento := ⟨2, 7, "2025-01-03", "devolucion", "d", 0, 700, none, none⟩

def mw3 : Movimiento := ⟨3, 7, "2025-01-04", "entrega", "e", 0, 3000, none, some 1⟩

/-- Concrete database used by the C1 witness. -/
def dbC1 : DB := ⟨[mw1, mw2, mw3], [], [], [], [], [], 4, 1, 1, 1⟩

/-- C1 witness: a concrete reseller with movements of the three kinds inserted
in two different orders yields the same balance, equal to the closed-form sum. -/
theorem get_balance_spec_witness :
    get_balance dbC1 7 = 5000 - 700 - 3000
      ∧ get_balance { dbC1 with movimientos := [mw3, mw1, mw2] } 7 = get_balance dbC1 7 := by
  have h := get_balance_spec dbC1 7
  refine ⟨?_, h.2 [mw3, mw1, mw2] (by rw [dbC1]; decide)⟩
  rw [h.1]
  simp [dbC1, mw1, mw2, mw3]

/-- Input to `save_entrega`: the caller's item dict
`{'pieza','cantidad','precio','total'}`. -/
structure ItemIn where
  pieza : String
  cantidad : Int
  precio : ℚ
  total : ℚ
deriving Repr, DecidableEq

/-- Return value of `save_entrega`: `{'entrega_id','entrega_nro','total'}`. -/
structure SaveEntregaResult where
  entrega_id : Nat
  entrega_nro : Nat
  total : ℚ
deriving Repr, DecidableEq

/-- lib/db.py `_next_entrega_nro_global`:
`SELECT COALESCE(MAX(entrega_nro),0) FROM entregas`, plus one. -/
def next_entrega_nro_global (d : DB) : Nat :=
  (d.entregas.foldl (fun acc e => max acc e.entrega_nro) 0) + 1

/-- The item-insertion loop of `save_entrega`: one `entrega_items` row per
input item, with consecutive AUTOINCREMENT ids, stripped label, and the
caller's `cantidad`, `precio` and `total` stored unchanged. -/
def insert_items (entrega_id : Nat) (next_item_id : Nat) :
    List ItemIn → List EntregaItem
  | [] => []
  | it :: rest =>
      ⟨next_item_id, entrega_id, py_strip it.pieza, it.cantidad, it.precio, it.total⟩
        :: insert_items entrega_id (next_item_id + 1) rest

/-- lib/db.py `save_entrega`: rejects an empty item list; computes the header
total as the sum of the caller-supplied item totals; assigns the next global
sequence number; inserts the header and the items; when `rev_id` is present it
additionally inserts one 'entrega' movement (same date, amount = header total,
quantity 0, description `Entrega N°<nro>`) and writes its id onto the header. -/
def save_entrega_core (d : DB) (rev_id : Option Nat) (cliente : Option String)
    (fecha : String) (items : List ItemIn) : DB × SaveEntregaResult :=
  let total : ℚ := (items.map (·.total)).sum
  let nro := next_entrega_nro_global d
  let entrega_id := d.next_entrega_id
  let cliente := match cliente with
    | some s => if s = "" then none else some s
    | none => none
  let new_items := insert_items entrega_id d.next_item_id items
  match rev_id with
  | none =>
      ({ d with
          entregas := d.entregas ++
            [⟨entrega_id, nro, none, cliente, fecha, total, none⟩],
          entrega_items := d.entrega_items ++ new_items,
          next_entrega_id := entrega_id + 1,
          next_item_id := d.next_item_id + items.length },
       ⟨entrega_id, nro, total⟩)
  | some r =>
      let mov : Movimiento :=
        ⟨d.next_mov_id, r, fecha, "entrega", "Entrega N°" ++ toString nro, 0,
         total, none, some nro⟩
      ({ d with
          entregas := d.entregas ++
            [⟨entrega_id, nro, some r, cliente, fecha, total,
              some d.next_mov_id⟩],
          entrega_items := d.entrega_items ++ new_items,
          movimientos := d.movimientos ++ [mov],
          next_entrega_id := entrega_id + 1,
          next_item_id := d.next_item_id + items.length,
          next_mov_id := d.next_mov_id + 1 },
       ⟨entrega_id, nro, total⟩)

/-- lib/db.py `save_entrega`, entry point: raises on an empty item list,
otherwise commits `save_entrega_core` and returns
`{'entrega_id','entrega_nro','total'}`. -/
def save_entrega (d : DB) (rev_id : Option Nat) (cliente : Option String)
    (fecha : String) (items : List ItemIn) :
    Except String (DB × SaveEntregaResult) :=
  if items.isEmpty then .error "No hay ítems en la entrega."
  else .ok (save_entrega_core d rev_id cliente fecha items)

/-- lib/db.py `delete_entrega`: looks the header up; a missing id is a no-op;
otherwise deletes the header, its items (FK cascade), and — when the header
carries a truthy `mov_id` — the linked movement. -/
def delete_entrega (d : DB) (entrega_id : Nat) : DB :=
  match d.entregas.find? (fun e => decide (e.id = entrega_id)) with
  | none => d
  | some e =>
      let d1 := { d with
        entregas := d.entregas.filter (fun x => decide (¬ x.id = entrega_id)),
        entrega_items :=
          d.entrega_items.filter (fun it => decide (¬ it.entrega_id = entrega_id)) }
      match e.mov_id with
      | some m =>
          if m ≠ 0 then
            { d1 with
              movimientos := d1.movimientos.filter (fun mv => decide (¬ mv.id = m)) }
          else d1
      | none => d1

/-- The items inserted by `save_entrega` keep exactly the caller-supplied
line totals. -/
theorem insert_items_map_total (eid : Nat) (items : List ItemIn) :
    ∀ n, (insert_items eid n items).map (·.total) = items.map (·.total) := by
  induction items with
  | nil => intro n; rfl
  | cons it rest ih => intro n; simp [insert_items, ih]

/-- Every item row inserted by `save_entrega` points at the new header. -/
theorem insert_items_entrega_id (eid : Nat) (items : List ItemIn) :
    ∀ n, ∀ x ∈ insert_items eid n items, x.entrega_id = eid := by
  induction items with
  | nil => intro n x hx; simp [insert_items] at hx
  | cons it rest ih =>
    intro n x hx
    rcases List.mem_cons.mp hx with h | h
    · subst h; rfl
    · exact ih (n + 1) x h

/-- When each caller line total agrees with quantity × unit price, so does the
sum. -/
theorem map_total_eq_of_qty_price (items : List ItemIn)
    (hall : ∀ it ∈ items, it.total = (it.cantidad : ℚ) * it.precio) :
    (items.map (·.total)).sum
      = (items.map (fun it => (it.cantidad : ℚ) * it.precio)).sum := by
  induction items with
  | nil => rfl
  | cons it rest ih =>
    simp only [List.map_cons, List.sum_cons]
    rw [hall it (by simp), ih (fun x hx => hall x (by simp [hx]))]

/-- C2 counterexample: a delivery posted with a single item whose
caller-supplied line total (9999) disagrees with quantity × unit price
(2 × 500 = 1000) persists the caller's 9999 as both the line total and the
header total — `save_entrega` never recomputes them. -/
theorem save_entrega_trusts_caller_total :
    ∃ d' res,
      save_entrega DB.empty none none "2025-01-01" [⟨"A", 2, 500, 9999⟩]
          = .ok (d', res)
        ∧ res.total = 9999
        ∧ d'.entregas.map (·.total) = [9999]
        ∧ d'.entrega_items.map (·.total) = [9999]
        ∧ (9999 : ℚ) ≠ 2 * 500 := by
  refine ⟨_, _, rfl, ?_, ?_, ?_, ?_⟩
  · simp
  · simp [DB.empty]
  · simp [DB.empty, insert_items]
  · norm_num

/-- C2 (amended): the persisted header total equals the sum of the
caller-supplied line totals (and each persisted line total is the
caller-supplied one); when every supplied line total equals
quantity × unit price — as the repository's own UI caller guarantees — the
header total equals Σ quantity × unit price. -/
theorem save_entrega_total_spec (d : DB) (rev_id : Option Nat)
    (cliente : Option String) (fecha : String) (items : List ItemIn)
    (hne : items ≠ []) :
    ∃ d' res, save_entrega d rev_id cliente fecha items = .ok (d', res)
      ∧ res.total = (items.map (·.total)).sum
      ∧ d'.entregas.map (·.total) = d.entregas.map (·.total)
          ++ [(items.map (·.total)).sum]
      ∧ d'.entrega_items.map (·.total) = d.entrega_items.map (·.total)
          ++ items.map (·.total)
      ∧ ((∀ it ∈ items, it.total = (it.cantidad : ℚ) * it.precio) →
          res.total = (items.map (fun it => (it.cantidad : ℚ) * it.precio)).sum) := by
  have hemp : items.isEmpty = false := by
    cases items with
    | nil => exact absurd rfl hne
    | cons a t => rfl
  have hcongr := map_total_eq_of_qty_price items
  refine ⟨(save_entrega_core d rev_id cliente fecha items).1,
          (save_entrega_core d rev_id cliente fecha items).2,
          by simp [save_entrega, hemp], ?_, ?_, ?_, ?_⟩
  · cases rev_id <;> rfl
  · cases rev_id <;> simp [save_entrega_core]
  · cases rev_id <;> simp [save_entrega_core, insert_items_map_total]
  · intro hall
    cases rev_id <;> simpa [save_entrega_core] using hcongr hall

/-- C2 amended-claim witness: posting `[(A,2,500,1000),(B,1,1000,1000)]`
(line totals consistent with quantity × unit price) yields header total 2000. -/
theorem save_entrega_total_spec_witness :
    ∃ d' res,
      save_entrega DB.empty (some 7) none "2025-02-01"
          [⟨"A", 2, 500, 1000⟩, ⟨"B", 1, 1000, 1000⟩] = .ok (d', res)
        ∧ res.total = 2000 := by
  obtain ⟨d', res, heq, htot, -, -, hqp⟩ :=
    save_entrega_total_spec DB.empty (some 7) none "2025-02-01"
      [⟨"A", 2, 500, 1000⟩, ⟨"B", 1, 1000, 1000⟩] (by simp)
  refine ⟨d', res, heq, ?_⟩
  rw [htot]
  norm_num

/-- C4: posting a delivery for a reseller creates exactly one movement of kind
'entrega' — same date as the delivery, amount equal to the persisted header
total, quantity 0, description referencing the sequence number — and writes the
movement id back onto the delivery header; posting for a free-text buyer
creates no movement at all. -/
theorem save_entrega_movement_link (d : DB) (r : Nat) (cliente : Option String)
    (fecha : String) (items : List ItemIn) (hne : items ≠ []) :
    (∃ d' res, save_entrega d (some r) cliente fecha items = .ok (d', res)
      ∧ d'.movimientos = d.movimientos ++
          [⟨d.next_mov_id, r, fecha, "entrega",
            "Entrega N°" ++ toString res.entrega_nro, 0, res.total, none,
            some res.entrega_nro⟩]
      ∧ ∃ e ∈ d'.entregas, e.id = res.entrega_id ∧ e.mov_id = some d.next_mov_id
          ∧ e.fecha = fecha ∧ e.total = res.total)
    ∧ ∀ cl : String, ∃ d' res,
        save_entrega d none (some cl) fecha items = .ok (d', res)
        ∧ d'.movimientos = d.movimientos := by
  have hemp : items.isEmpty = false := by
    cases items with
    | nil => exact absurd rfl hne
    | cons a t => rfl
  constructor
  · refine ⟨(save_entrega_core d (some r) cliente fecha items).1,
            (save_entrega_core d (some r) cliente fecha items).2,
            by simp [save_entrega, hemp], by simp [save_entrega_core], ?_⟩
    refine ⟨⟨d.next_entrega_id, next_entrega_nro_global d, some r,
             (match cliente with
              | some s => if s = "" then none else some s
              | none => none),
             fecha, (items.map (·.total)).sum, some d.next_mov_id⟩, ?_, ?_, ?_,
            ?_, ?_⟩ <;>
      simp [save_entrega_core]
  · intro cl
    exact ⟨(save_entrega_core d none (some cl) fecha items).1,
           (save_entrega_core d none (some cl) fecha items).2,
           by simp [save_entrega, hemp], by simp [save_entrega_core]⟩

/-- C4 witness: posting a two-item delivery for reseller 7 on an empty database
appends exactly the expected debit movement, and posting the same items for a
walk-in buyer leaves the movement table empty. -/
theorem save_entrega_movement_link_witness :
    (∃ d' res, save_entrega DB.empty (some 7) none "2025-03-05"
        [⟨"A", 2, 500, 1000⟩, ⟨"B", 1, 1000, 1000⟩] = .ok (d', res)
      ∧ d'.movimientos = [⟨1, 7, "2025-03-05", "entrega",
          "Entrega N°" ++ toString res.entrega_nro, 0, res.total, none,
          some res.entrega_nro⟩])
    ∧ ∃ d' res, save_entrega DB.empty none (some "Juan") "2025-03-05"
        [⟨"A", 2, 500, 1000⟩, ⟨"B", 1, 1000, 1000⟩] = .ok (d', res)
        ∧ d'.movimientos = [] := by
  obtain ⟨⟨d', res, heq, hmov, -⟩, hfree⟩ :=
    save_entrega_movement_link DB.empty 7 none "2025-03-05"
      [⟨"A", 2, 500, 1000⟩, ⟨"B", 1, 1000, 1000⟩] (by simp)
  obtain ⟨d2, res2, heq2, hmov2⟩ := hfree "Juan"
  exact ⟨⟨d', res, heq, by simpa [DB.empty] using hmov⟩,
         ⟨d2, res2, heq2, by simpa [DB.empty] using hmov2⟩⟩

/-- `find?` skips a prefix on which the predicate is everywhere false. -/
theorem find?_append_left_false {α : Type} (p : α → Bool) (l1 l2 : List α)
    (h : ∀ a ∈ l1, p a = false) : (l1 ++ l2).find? p = l2.find? p := by
  induction l1 with
  | nil => rfl
  | cons a t ih =>
    rw [List.cons_append, List.find?_cons_of_neg _ (by simp [h a (by simp)]),
        ih (fun x hx => h x (by simp [hx]))]

/-- `filter` keeps a list on which the predicate is everywhere true. -/
theorem filter_eq_self_of_forall {α : Type} (p : α → Bool) (l : List α)
    (h : ∀ a ∈ l, p a = true) : l.filter p = l :=
  List.filter_eq_self.mpr h

/-- Unfolding of `delete_entrega` when the header is found and carries a
truthy movement link. -/
theorem delete_entrega_spec_some (d : DB) (eid m : Nat) (e : Entrega)
    (hf : d.entregas.find? (fun x => decide (x.id = eid)) = some e)
    (hm : e.mov_id = some m) (hm0 : m ≠ 0) :
    delete_entrega d eid =
      { d with
        entregas := d.entregas.filter (fun x => decide (¬ x.id = eid)),
        entrega_items :=
          d.entrega_items.filter (fun it => decide (¬ it.entrega_id = eid)),
        movimientos := d.movimientos.filter (fun mv => decide (¬ mv.id = m)) } := by
  rw [delete_entrega]
  split
  · next hnone => rw [hnone] at hf; exact absurd hf (by simp)
  · next e' hsome =>
    rw [hsome] at hf
    obtain rfl : e' = e := by injection hf
    split
    · next m' hm' =>
      rw [hm] at hm'
      injection hm' with h
      subst h
      rw [if_pos hm0]
    · next hnone => rw [hm] at hnone; exact absurd hnone (by simp)

/-- Unfolding of `delete_entrega` when no header matches: a no-op. -/
theorem delete_entrega_spec_none (d : DB) (eid : Nat)
    (hf : d.entregas.find? (fun x => decide (x.id = eid)) = none) :
    delete_entrega d eid = d := by
  rw [delete_entrega]
  split
  · rfl
  · next e' hsome => rw [hsome] at hf; exact absurd hf (by simp)

/-- C5: posting a delivery for a reseller and then deleting it removes the new
header, all of its line items and the linked debit movement, leaving all three
tables — and hence every reseller's balance — exactly as before the posting;
deleting an id that matches no delivery is a no-op. The id-freshness
hypotheses say the AUTOINCREMENT counters have not yet been used, which holds
of every state the API can reach. -/
theorem post_then_delete_roundtrip (d : DB) (r : Nat) (cliente : Option String)
    (fecha : String) (items : List ItemIn) (hne : items ≠ [])
    (hE : ∀ e ∈ d.entregas, e.id ≠ d.next_entrega_id)
    (hI : ∀ it ∈ d.entrega_items, it.entrega_id ≠ d.next_entrega_id)
    (hM : ∀ m ∈ d.movimientos, m.id ≠ d.next_mov_id)
    (hM0 : d.next_mov_id ≠ 0) :
    (∃ d' res, save_entrega d (some r) cliente fecha items = .ok (d', res)
      ∧ delete_entrega d' res.entrega_id
          = { d' with movimientos := d.movimientos, entregas := d.entregas,
                      entrega_items := d.entrega_items }
      ∧ ∀ rid, get_balance (delete_entrega d' res.entrega_id) rid
          = get_balance d rid)
    ∧ ∀ eid, (∀ e ∈ d.entregas, e.id ≠ eid) → delete_entrega d eid = d := by
  have hemp : items.isEmpty = false := by
    cases items with
    | nil => exact absurd rfl hne
    | cons a t => rfl
  constructor
  · have hfind : (save_entrega_core d (some r) cliente fecha items).1.entregas.find?
        (fun x =>
          decide (x.id = (save_entrega_core d (some r) cliente fecha items).2.entrega_id))
        = some ⟨d.next_entrega_id, next_entrega_nro_global d, some r,
            (match cliente with
             | some s => if s = "" then none else some s
             | none => none),
            fecha, (items.map (·.total)).sum, some d.next_mov_id⟩ := by
      simp only [save_entrega_core]
      rw [find?_append_left_false _ _ _ (fun e he => by simp [hE e he])]
      rw [List.find?_cons_of_pos _ (by simp)]
    have hdel : delete_entrega (save_entrega_core d (some r) cliente fecha items).1
        (save_entrega_core d (some r) cliente fecha items).2.entrega_id
        = { (save_entrega_core d (some r) cliente fecha items).1 with
            movimientos := d.movimientos, entregas := d.entregas,
            entrega_items := d.entrega_items } := by
      rw [delete_entrega_spec_some _ _ d.next_mov_id _ hfind rfl hM0]
      simp only [save_entrega_core]
      rw [List.filter_append, List.filter_append, List.filter_append]
      rw [filter_eq_self_of_forall _ d.entregas (fun e he => by simp [hE e he])]
      rw [filter_eq_self_of_forall _ d.entrega_items
          (fun it hit => by simp [hI it hit])]
      rw [filter_eq_self_of_forall _ d.movimientos (fun m hm => by simp [hM m hm])]
      have hnew : (insert_items d.next_entrega_id d.next_item_id items).filter
          (fun it => decide (¬ it.entrega_id = d.next_entrega_id)) = [] := by
        rw [List.filter_eq_nil_iff]
        intro it hit
        simp [insert_items_entrega_id d.next_entrega_id items d.next_item_id it hit]
      rw [hnew]
      simp
    refine ⟨(save_entrega_core d (some r) cliente fecha items).1,
            (save_entrega_core d (some r) cliente fecha items).2,
            by simp [save_entrega, hemp], hdel, ?_⟩
    intro rid
    rw [hdel]
    simp only [get_balance]
  · intro eid hno
    refine delete_entrega_spec_none d eid ?_
    rw [List.find?_eq_none]
    intro e he
    simp [hno e he]

/-- Concrete database used by the C5 witness: one prior payment, fresh
counters. -/
def dbC5 : DB :=
  ⟨[⟨1, 7, "2025-03-01", "pago", "p", 0, 5000, some "MP", none⟩],
   [], [], [], [], [], 2, 1, 1, 1⟩

/-- C5 witness: on a concrete state, posting a 2000-total delivery for
reseller 7 and deleting it restores every balance, and deleting the missing
id 99 is a no-op. -/
theorem post_then_delete_roundtrip_witness :
    (∃ d' res, save_entrega dbC5 (some 7) none "2025-04-01"
        [⟨"A", 2, 500, 1000⟩, ⟨"B", 1, 1000, 1000⟩] = .ok (d', res)
      ∧ ∀ rid, get_balance (delete_entrega d' res.entrega_id) rid
          = get_balance dbC5 rid)
    ∧ delete_entrega dbC5 99 = dbC5 := by
  obtain ⟨⟨d', res, heq, hdel, hbal⟩, hnoop⟩ :=
    post_then_delete_roundtrip dbC5 7 none "2025-04-01"
      [⟨"A", 2, 500, 1000⟩, ⟨"B", 1, 1000, 1000⟩]
      (by simp) (by simp [dbC5]) (by simp [dbC5]) (by simp [dbC5])
      (by simp [dbC5])
  exact ⟨⟨d', res, heq, hbal⟩, hnoop 99 (by simp [dbC5])⟩

/-- The fold computing `MAX(entrega_nro)` dominates its initial value. -/
theorem foldl_max_init_le (l : List Entrega) (a : Nat) :
    a ≤ l.foldl (fun acc e => max acc e.entrega_nro) a := by
  induction l generalizing a with
  | nil => exact le_refl a
  | cons e t ih => exact le_trans (le_max_left a e.entrega_nro) (ih _)

/-- The fold computing `MAX(entrega_nro)` dominates every member. -/
theorem mem_le_foldl_max (l : List Entrega) (a : Nat) :
    ∀ e ∈ l, e.entrega_nro ≤ l.foldl (fun acc e => max acc e.entrega_nro) a := by
  induction l generalizing a with
  | nil => intro e he; simp at he
  | cons x t ih =>
    intro e he
    rcases List.mem_cons.mp he with h | h
    · subst h
      exact le_trans (le_max_right a e.entrega_nro) (foldl_max_init_le t _)
    · exact ih _ e h

/-- C6: the sequence number assigned by `save_entrega` is
`COALESCE(MAX(entrega_nro),0) + 1`: it is 1 on an empty delivery table, it is
strictly greater than every existing sequence number (so it never repeats),
and an immediately following post is assigned the successor. -/
theorem save_entrega_nro_spec (d : DB) (rev_id rev_id2 : Option Nat)
    (cliente : Option String) (fecha : String) (items items2 : List ItemIn)
    (h1 : items ≠ []) (h2 : items2 ≠ []) :
    ∃ d' res, save_entrega d rev_id cliente fecha items = .ok (d', res)
      ∧ res.entrega_nro = next_entrega_nro_global d
      ∧ (d.entregas = [] → res.entrega_nro = 1)
      ∧ (∀ e ∈ d.entregas, e.entrega_nro < res.entrega_nro)
      ∧ ∃ d'' res2, save_entrega d' rev_id2 cliente fecha items2 = .ok (d'', res2)
          ∧ res2.entrega_nro = res.entrega_nro + 1 := by
  have hemp : items.isEmpty = false := by
    cases items with
    | nil => exact absurd rfl h1
    | cons a t => rfl
  have hemp2 : items2.isEmpty = false := by
    cases items2 with
    | nil => exact absurd rfl h2
    | cons a t => rfl
  have hnro : (save_entrega_core d rev_id cliente fecha items).2.entrega_nro
      = next_entrega_nro_global d := by
    cases rev_id <;> simp [save_entrega_core]
  have hents : (save_entrega_core d rev_id cliente fecha items).1.entregas.foldl
      (fun acc e => max acc e.entrega_nro) 0
      = next_entrega_nro_global d := by
    cases rev_id <;>
      · simp only [save_entrega_core, List.foldl_append, List.foldl_cons,
          List.foldl_nil]
        rw [next_entrega_nro_global]
        exact max_eq_right (Nat.le_succ _)
  refine ⟨(save_entrega_core d rev_id cliente fecha items).1,
          (save_entrega_core d rev_id cliente fecha items).2,
          by simp [save_entrega, hemp], hnro, ?_, ?_, ?_⟩
  · intro hnil
    rw [hnro, next_entrega_nro_global, hnil]
    rfl
  · intro e he
    rw [hnro, next_entrega_nro_global]
    exact Nat.lt_succ_of_le (mem_le_foldl_max d.entregas 0 e he)
  · have hnro2 : (save_entrega_core (save_entrega_core d rev_id cliente fecha items).1
        rev_id2 cliente fecha items2).2.entrega_nro
        = next_entrega_nro_global (save_entrega_core d rev_id cliente fecha items).1 := by
      cases rev_id2 <;> simp [save_entrega_core]
    refine ⟨(save_entrega_core (save_entrega_core d rev_id cliente fecha items).1
              rev_id2 cliente fecha items2).1,
            (save_entrega_core (save_entrega_core d rev_id cliente fecha items).1
              rev_id2 cliente fecha items2).2,
            by simp [save_entrega, hemp2], ?_⟩
    rw [hnro2, next_entrega_nro_global, hents, hnro]

/-- Concrete database used by the C6 witness: one delivery numbered 5. -/
def dbC6 : DB :=
  ⟨[], [⟨1, 5, none, some "X", "2025-01-01", 100, none⟩], [], [], [], [],
   1, 2, 1, 1⟩

/-- C6 witness: with an existing delivery numbered 5, two immediate posts are
numbered 6 and then 7. -/
theorem save_entrega_nro_spec_witness :
    ∃ d' res, save_entrega dbC6 none none "2025-05-01" [⟨"A", 1, 100, 100⟩]
        = .ok (d', res)
      ∧ res.entrega_nro = 6
      ∧ ∃ d'' res2, save_entrega d' none none "2025-05-01" [⟨"B", 1, 100, 100⟩]
          = .ok (d'', res2)
        ∧ res2.entrega_nro = 7 := by
  obtain ⟨d', res, heq, hnro, -, -, d'', res2, heq2, hnro2⟩ :=
    save_entrega_nro_spec dbC6 none none none "2025-05-01"
      [⟨"A", 1, 100, 100⟩] [⟨"B", 1, 100, 100⟩] (by simp) (by simp)
  refine ⟨d', res, heq, ?_, d'', res2, heq2, ?_⟩
  · rw [hnro]
    simp [next_entrega_nro_global, dbC6]
  · rw [hnro2, hnro]
    simp [next_entrega_nro_global, dbC6]

/-- views/cuentas.py `_get_splits`: the splits of one payment movement, in id
(= insertion) order, which list order already provides. -/
def get_splits (d : DB) (mov_id : Nat) : List PaymentSplit :=
  d.payment_splits.filter (fun s => decide (s.mov_id = mov_id))

/-- views/cuentas.py `_ensure_default_split`: when a payment has no splits,
insert the single default split — full amount, divisor 1; otherwise do
nothing. -/
def ensure_default_split (d : DB) (mov_id : Nat) (monto : ℚ) : DB :=
  if (d.payment_splits.filter (fun s => decide (s.mov_id = mov_id))).length = 0
  then
    { d with
      payment_splits := d.payment_splits ++
        [⟨d.next_split_id, mov_id, monto, 1, false⟩],
      next_split_id := d.next_split_id + 1 }
  else d

/-- views/cuentas.py `_add_split`: append a split with divisor 1. -/
def add_split (d : DB) (mov_id : Nat) (amount : ℚ) : DB :=
  { d with
    payment_splits := d.payment_splits ++
      [⟨d.next_split_id, mov_id, amount, 1, false⟩],
    next_split_id := d.next_split_id + 1 }

/-- views/cuentas.py `_delete_split`. -/
def delete_split (d : DB) (split_id : Nat) : DB :=
  { d with
    payment_splits := d.payment_splits.filter (fun s => decide (¬ s.id = split_id)) }

/-- views/cuentas.py `_update_split`: unconditionally overwrites the matching
split's `part_amount` and `cost_divisor` in place — the function performs no
validation of the divisor. -/
def update_split (d : DB) (split_id : Nat) (amount : ℚ) (divisor : Int) : DB :=
  { d with
    payment_splits := d.payment_splits.map (fun s =>
      if s.id = split_id then
        { s with part_amount := amount, cost_divisor := divisor }
      else s) }

/-- C7: `_ensure_default_split` (the auto-initialization behind
`get_or_init_splits`) is idempotent: on a payment with no splits the first
call creates exactly one default split — portion = the payment amount,
divisor 1 — a second call with any amount changes nothing, and on a payment
that already has splits it never creates one. -/
theorem ensure_default_split_spec (d : DB) (mid : Nat) (monto monto2 : ℚ) :
    (get_splits d mid = [] →
      get_splits (ensure_default_split d mid monto) mid
          = [⟨d.next_split_id, mid, monto, 1, false⟩]
        ∧ ensure_default_split (ensure_default_split d mid monto) mid monto2
          = ensure_default_split d mid monto)
    ∧ (get_splits d mid ≠ [] → ensure_default_split d mid monto = d) := by
  constructor
  · intro hnil
    have hlen : (d.payment_splits.filter
        (fun s => decide (s.mov_id = mid))).length = 0 := by
      rw [get_splits] at hnil
      rw [hnil]
      rfl
    have hfirst : ensure_default_split d mid monto
        = { d with
            payment_splits := d.payment_splits ++
              [⟨d.next_split_id, mid, monto, 1, false⟩],
            next_split_id := d.next_split_id + 1 } := by
      rw [ensure_default_split, if_pos hlen]
    constructor
    · rw [hfirst, get_splits]
      simp only [List.filter_append]
      rw [get_splits] at hnil
      rw [hnil]
      simp
    · rw [hfirst]
      rw [ensure_default_split]
      rw [if_neg]
      simp only [List.filter_append, List.length_append]
      rw [get_splits] at hnil
      rw [hnil]
      simp
  · intro hne
    rw [ensure_default_split, if_neg]
    intro hlen
    exact hne (by rw [get_splits]; exact List.length_eq_zero.mp hlen)

/-- Concrete database used by the C7 witness: one payment, no splits yet. -/
def dbC7 : DB :=
  ⟨[⟨1, 7, "2025-01-02", "pago", "p", 0, 5000, some "MP", none⟩],
   [], [], [], [], [], 2, 1, 1, 1⟩

/-- C7 witness: on a payment with no splits, the first call creates the single
default split (portion 5000, divisor 1) and the second call changes nothing. -/
theorem ensure_default_split_spec_witness :
    get_splits dbC7 1 = []
    ∧ get_splits (ensure_default_split dbC7 1 5000) 1 = [⟨1, 1, 5000, 1, false⟩]
    ∧ ensure_default_split (ensure_default_split dbC7 1 5000) 1 5000
        = ensure_default_split dbC7 1 5000 := by
  have h0 : get_splits dbC7 1 = [] := by simp [get_splits, dbC7]
  obtain ⟨h1, h2⟩ := (ensure_default_split_spec dbC7 1 5000 5000).1 h0
  exact ⟨h0, by rw [h1, dbC7], h2⟩

/-- views/cuentas.py helper `D`: `Decimal(str(x)).quantize(Decimal("0.01"),
rounding=ROUND_HALF_UP)` — round to two decimals, ties away from zero. -/
def Dq (x : ℚ) : ℚ :=
  (if x < 0 then (-1 : ℚ) else 1) * (⌊|x| * 100 + 1 / 2⌋ : ℚ) / 100

/-- `D` is the identity on integer amounts. -/
theorem Dq_intCast (n : ℤ) : Dq (n : ℚ) = n := by
  have habs : |(n : ℚ)| * 100 = ((|n| * 100 : ℤ) : ℚ) := by
    push_cast
    ring
  have hhalf : ⌊(1 : ℚ) / 2⌋ = 0 := by
    rw [Int.floor_eq_zero_iff]
    constructor <;> norm_num
  have hfloor : ⌊|(n : ℚ)| * 100 + 1 / 2⌋ = |n| * 100 := by
    rw [habs, add_comm, Int.floor_add_int, hhalf, zero_add]
  rw [Dq, hfloor]
  rcases lt_or_le (n : ℚ) 0 with h | h
  · rw [if_pos h]
    have hn : |n| = -n := abs_of_neg (by exact_mod_cast h)
    rw [hn]
    push_cast
    ring
  · rw [if_neg (not_lt.mpr h)]
    have hn : |n| = n := abs_of_nonneg (by exact_mod_cast h)
    rw [hn]
    push_cast
    ring

/-- The SQL join of `_totals_from_splits`: every split whose parent movement
is a payment dated inside the window, as a `(part_amount, cost_divisor)` row.
The window `date(fecha) BETWEEN ini AND fin` is abstracted as a predicate on
the date string. -/
def splits_in_window (d : DB) (inWin : String → Bool) : List (ℚ × Int) :=
  d.payment_splits.filterMap (fun s =>
    match d.movimientos.find? (fun m => decide (m.id = s.mov_id)) with
    | some m =>
        if m.tipo = "pago" ∧ inWin m.fecha = true
        then some (s.part_amount, s.cost_divisor) else none
    | none => none)

/-- views/cuentas.py `_totals_from_splits` accumulation loop: per row,
`amt = D(amt)`, `div = D(div if div else 1)`, `costo = amt/div`,
`gan = amt - costo`, `gm = gan/2`; returns (Σgan, Σgm). -/
def totals_from_splits (rows : List (ℚ × Int)) : ℚ × ℚ :=
  rows.foldl (fun acc r =>
    let amt := Dq r.1
    let div := Dq (if r.2 = 0 then (1 : ℚ) else (r.2 : ℚ))
    let costo := amt / div
    let gan := amt - costo
    let gm := gan / 2
    (acc.1 + gan, acc.2 + gm)) (0, 0)

/-- views/cuentas.py `render`: `gastos_total = D(sum(monto))` over the month's
expenses. -/
def gastos_total (d : DB) (inWin : String → Bool) : ℚ :=
  Dq (((d.expenses.filter (fun e => inWin e.fecha)).map (·.monto)).sum)

/-- views/cuentas.py `render`: `payouts_total = D(sum(monto))` over the
month's partner payouts. -/
def payouts_total (d : DB) (inWin : String → Bool) : ℚ :=
  Dq (((d.partner_payouts.filter (fun p => inWin p.fecha)).map (·.monto)).sum)

/-- views/cuentas.py `render`: `gan_individual = gm_total - gastos_total/D(2)`. -/
def gan_individual (d : DB) (inWin : String → Bool) : ℚ :=
  (totals_from_splits (splits_in_window d inWin)).2
    - gastos_total d inWin / Dq 2

/-- views/cuentas.py `render`: `pago_a_romina = gan_individual - payouts_total`,
passed to display as computed, with no clamping. -/
def pago_a_romina (d : DB) (inWin : String → Bool) : ℚ :=
  gan_individual d inWin - payouts_total d inWin

/-- The fold of `_totals_from_splits` is the pair of row-wise sums. -/
theorem totals_from_splits_eq_sum (rows : List (ℚ × Int)) :
    totals_from_splits rows =
      ((rows.map (fun r =>
          Dq r.1 - Dq r.1 / Dq (if r.2 = 0 then (1 : ℚ) else (r.2 : ℚ)))).sum,
       (rows.map (fun r =>
          (Dq r.1 - Dq r.1 / Dq (if r.2 = 0 then (1 : ℚ) else (r.2 : ℚ))) / 2)).sum) := by
  have general : ∀ (rows : List (ℚ × Int)) (a b : ℚ),
      rows.foldl (fun acc r =>
        let amt := Dq r.1
        let div := Dq (if r.2 = 0 then (1 : ℚ) else (r.2 : ℚ))
        let costo := amt / div
        let gan := amt - costo
        let gm := gan / 2
        (acc.1 + gan, acc.2 + gm)) (a, b)
      = (a + (rows.map (fun r =>
            Dq r.1 - Dq r.1 / Dq (if r.2 = 0 then (1 : ℚ) else (r.2 : ℚ)))).sum,
         b + (rows.map (fun r =>
            (Dq r.1 - Dq r.1 / Dq (if r.2 = 0 then (1 : ℚ) else (r.2 : ℚ))) / 2)).sum) := by
    intro rows
    induction rows with
    | nil => intro a b; simp
    | cons r t ih =>
      intro a b
      rw [List.foldl_cons, ih]
      simp only [List.map_cons, List.sum_cons, Prod.mk.injEq]
      constructor <;> ring
  rw [totals_from_splits, general]
  simp

/-- C8: over any month window, the settlement rollup satisfies
`individual_profit = half_profit_total − expenses_total/2` — where
`half_profit_total` sums `(portion − portion/divisor)/2` over every split
whose parent payment falls in the window — and
`payout_due = individual_profit − payouts_total`, an identity that holds with
no clamping of negative results. The hypotheses say the stored portions are
two-decimal amounts (Decimal quantization is then the identity) and no stored
divisor is zero (a zero divisor is substituted by 1 in the code). -/
theorem settlement_formulas (d : DB) (inWin : String → Bool)
    (hrows : ∀ p ∈ splits_in_window d inWin, p.2 ≠ 0 ∧ Dq p.1 = p.1) :
    gan_individual d inWin
      = ((splits_in_window d inWin).map
          (fun p => (p.1 - p.1 / (p.2 : ℚ)) / 2)).sum
        - gastos_total d inWin / 2
    ∧ pago_a_romina d inWin
      = gan_individual d inWin - payouts_total d inWin := by
  constructor
  · rw [gan_individual, totals_from_splits_eq_sum]
    have h2 : Dq 2 = 2 := by exact_mod_cast Dq_intCast 2
    rw [h2]
    have hmap : (splits_in_window d inWin).map (fun r =>
          (Dq r.1 - Dq r.1 / Dq (if r.2 = 0 then (1 : ℚ) else (r.2 : ℚ))) / 2)
        = (splits_in_window d inWin).map
          (fun p => (p.1 - p.1 / (p.2 : ℚ)) / 2) := by
      refine List.map_congr_left ?_
      intro p hp
      obtain ⟨hz, hq⟩ := hrows p hp
      rw [hq, if_neg hz, Dq_intCast]
    rw [hmap]
  · rfl

/-- All-covering window used by the C8 witness (every date inside the
selected month). -/
def winAll : String → Bool := fun _ => true

/-- Concrete database used by the C8 witness: one 9000 payment split
4000 (divisor 2) / 5000 (divisor 1), a 2000 expense, a 1500 payout. -/
def dbC8 : DB :=
  ⟨[⟨1, 7, "2025-03-05", "pago", "cobro", 0, 9000, some "MP", none⟩],
   [], [],
   [⟨1, 1, 4000, 2, false⟩, ⟨2, 1, 5000, 1, false⟩],
   [⟨1, "2025-03-10", "luz", 2000⟩],
   [⟨1, "2025-03-15", 1500, "adelanto"⟩],
   2, 1, 1, 3⟩

/-- C8 witness: on the concrete month the formulas give
individual profit (4000−2000)/2 + 0 − 2000/2 = 0 and payout due
0 − 1500 = −1500, surfaced negative rather than clamped. -/
theorem settlement_formulas_witness :
    gan_individual dbC8 winAll
        = ((splits_in_window dbC8 winAll).map
            (fun p => (p.1 - p.1 / (p.2 : ℚ)) / 2)).sum
          - gastos_total dbC8 winAll / 2
      ∧ pago_a_romina dbC8 winAll
        = gan_individual dbC8 winAll - payouts_total dbC8 winAll
      ∧ pago_a_romina dbC8 winAll = -1500 := by
  have hrows : splits_in_window dbC8 winAll = [(4000, 2), (5000, 1)] := by
    simp [splits_in_window, dbC8, winAll, List.find?]
  obtain ⟨hg, hp⟩ := settlement_formulas dbC8 winAll (by
    rw [hrows]
    intro p hp
    rcases List.mem_cons.mp hp with h | h
    · subst h
      exact ⟨by decide, by exact_mod_cast Dq_intCast 4000⟩
    · rcases List.mem_cons.mp h with h2 | h2
      · subst h2
        exact ⟨by decide, by exact_mod_cast Dq_intCast 5000⟩
      · simp at h2)
  have hgasto : gastos_total dbC8 winAll = 2000 := by
    rw [gastos_total]
    have : ((dbC8.expenses.filter (fun e => winAll e.fecha)).map (·.monto)).sum
        = (2000 : ℚ) := by simp [dbC8, winAll]
    rw [this]
    exact_mod_cast Dq_intCast 2000
  have hpayout : payouts_total dbC8 winAll = 1500 := by
    rw [payouts_total]
    have : ((dbC8.partner_payouts.filter (fun p => winAll p.fecha)).map (·.monto)).sum
        = (1500 : ℚ) := by simp [dbC8, winAll]
    rw [this]
    exact_mod_cast Dq_intCast 1500
  refine ⟨hg, hp, ?_⟩
  rw [hp, hg, hrows, hgasto, hpayout]
  norm_num

/-- C3 counterexample: the detail view's sign normalization deliberately makes
the 'devolucion' amount negative, and `add_movimiento` stores it as-is, so the
ledger ends up holding a movement with amount −100 < 0. -/
theorem add_movimiento_stores_negative_amount :
    monto_con_signo "devolucion" 100 = -100
    ∧ ∃ d', add_movimiento "2025-06-01" DB.empty 7 "devolucion" "Dev manual" 0
          (monto_con_signo "devolucion" 100) (some "2025-06-01")
          (some "DEVOLUCION") none = .ok d'
        ∧ ∃ m ∈ d'.movimientos, m.monto = -100 ∧ m.monto < 0 := by
  have hsign : monto_con_signo "devolucion" 100 = -100 := by
    rw [monto_con_signo, if_pos (by decide)]
    norm_num
  have hlt : monto_con_signo "devolucion" 100 < 0 := by
    rw [hsign]
    norm_num
  refine ⟨hsign,
    { DB.empty with
        movimientos := [⟨1, 7, "2025-06-01", py_strip (py_lower "devolucion"),
          py_strip "Dev manual", 0, monto_con_signo "devolucion" 100,
          some "DEVOLUCION", none⟩],
        next_mov_id := 2 }, ?_, ?_⟩
  · simp only [add_movimiento]
    rw [if_neg (by decide)]
    rfl
  · exact ⟨⟨1, 7, "2025-06-01", py_strip (py_lower "devolucion"),
      py_strip "Dev manual", 0, monto_con_signo "devolucion" 100,
      some "DEVOLUCION", none⟩, by simp, hsign, hlt⟩

/-- C3 (amended): `add_movimiento` and `update_movimiento` store the caller's
amount and quantity exactly as passed, with no sign coercion; the detail view
normalizes the sign before calling — `|amount|` for every kind except
'devolucion', which gets `−|amount|` — so amounts stored through the view are
non-negative for pago/entrega and non-positive for devolución. -/
theorem movimiento_amount_storage_spec (today : String) (d : DB) (rid : Nat)
    (tipo detalle : String) (cant : Int) (monto : ℚ) (fecha medio : Option String)
    (nro : Option Nat) (d' : DB)
    (h : add_movimiento today d rid tipo detalle cant monto fecha medio nro
      = .ok d') :
    d'.movimientos = d.movimientos ++
      [⟨d.next_mov_id, rid, fecha.getD today, py_strip (py_lower tipo),
        py_strip detalle, cant, monto, medio, nro⟩]
    ∧ (py_lower (py_strip tipo) ≠ "devolucion" → 0 ≤ monto_con_signo tipo monto)
    ∧ (py_lower (py_strip tipo) = "devolucion" → monto_con_signo tipo monto ≤ 0)
    ∧ ∀ (mid : Nat) (fecha2 : String) (d2 d2' : DB),
        update_movimiento d2 mid fecha2 tipo detalle cant monto medio = .ok d2' →
        d2'.movimientos = d2.movimientos.map (fun m =>
          if m.id = mid then
            { m with fecha := fecha2, tipo := py_strip (py_lower tipo),
                     detalle := py_strip detalle, cantidad := cant,
                     monto := monto, medio_pago := medio }
          else m) := by
  refine ⟨?_, ?_, ?_, ?_⟩
  · simp only [add_movimiento] at h
    split at h
    · exact absurd h (by simp)
    · injection h with h
      rw [← h]
  · intro hne
    rw [monto_con_signo, if_neg hne]
    exact abs_nonneg monto
  · intro heq
    rw [monto_con_signo, if_pos heq]
    simp [abs_nonneg]
  · intro mid fecha2 d2 d2' h2
    simp only [update_movimiento] at h2
    split at h2
    · exact absurd h2 (by simp)
    · injection h2 with h2
      rw [← h2]

/-- C3 amended-claim witness: a concrete append stores the passed amount 350
and quantity 0 unchanged. -/
theorem movimiento_amount_storage_spec_witness :
    ∃ d', add_movimiento "2025-06-01" DB.empty 7 "pago" "abono" 0 350 none
        (some "MP") none = .ok d'
      ∧ d'.movimientos = [⟨1, 7, "2025-06-01", py_strip (py_lower "pago"),
          py_strip "abono", 0, 350, some "MP", none⟩] := by
  have h : add_movimiento "2025-06-01" DB.empty 7 "pago" "abono" 0 350 none
      (some "MP") none = .ok { DB.empty with
        movimientos := [⟨1, 7, "2025-06-01", py_strip (py_lower "pago"),
          py_strip "abono", 0, 350, some "MP", none⟩],
        next_mov_id := 2 } := by
    simp only [add_movimiento]
    rw [if_neg (by decide)]
    rfl
  obtain ⟨h1, -, -, -⟩ :=
    movimiento_amount_storage_spec "2025-06-01" DB.empty 7 "pago" "abono" 0 350
      none (some "MP") none _ h
  exact ⟨_, h, by rw [h1]; rfl⟩

/-- Concrete database used by the C9 counterexample: one split with portion
500 and divisor 2. -/
def dbC9 : DB := ⟨[], [], [], [⟨1, 1, 500, 2, false⟩], [], [], 1, 1, 1, 2⟩

/-- C9 counterexample: `_update_split` called with divisor 0 (not a positive
integer) is not rejected — it writes the split, which now stores divisor 0. -/
theorem update_split_accepts_nonpositive_divisor :
    (update_split dbC9 1 250 0).payment_splits = [⟨1, 1, 250, 0, false⟩]
    ∧ update_split dbC9 1 250 0 ≠ dbC9 := by
  have hps : (update_split dbC9 1 250 0).payment_splits
      = [⟨1, 1, 250, 0, false⟩] := by
    simp [update_split, dbC9]
  refine ⟨hps, fun hcontra => ?_⟩
  have : ([⟨1, 1, 250, 0, false⟩] : List PaymentSplit)
      = [⟨1, 1, 500, 2, false⟩] := by
    rw [← hps, hcontra]
    rfl
  norm_num [List.cons.injEq, PaymentSplit.mk.injEq] at this

/-- C9 (amended): `_update_split` performs no divisor validation: for any
integer divisor, positive or not, it overwrites the matching split's portion
and divisor in place, leaves every other split and every other table
unchanged — only the UI's selectbox constrains the divisor to 1–10. -/
theorem update_split_overwrites_in_place (d : DB) (sid : Nat) (amt : ℚ)
    (div : Int) :
    (update_split d sid amt div).payment_splits
      = d.payment_splits.map (fun s =>
          if s.id = sid then
            { s with part_amount := amt, cost_divisor := div }
          else s)
    ∧ (update_split d sid amt div).movimientos = d.movimientos
    ∧ (update_split d sid amt div).entregas = d.entregas
    ∧ (update_split d sid amt div).entrega_items = d.entrega_items
    ∧ (update_split d sid amt div).expenses = d.expenses
    ∧ (update_split d sid amt div).partner_payouts = d.partner_payouts
    ∧ (∀ s ∈ d.payment_splits, s.id ≠ sid →
        s ∈ (update_split d sid amt div).payment_splits)
    ∧ (∀ s ∈ d.payment_splits, s.id = sid →
        ({ s with part_amount := amt, cost_divisor := div } : PaymentSplit)
          ∈ (update_split d sid amt div).payment_splits) := by
  refine ⟨rfl, rfl, rfl, rfl, rfl, rfl, ?_, ?_⟩
  · intro s hs hne
    rw [update_split]
    exact List.mem_map.mpr ⟨s, hs, by rw [if_neg hne]⟩
  · intro s hs heq
    rw [update_split]
    exact List.mem_map.mpr ⟨s, hs, by rw [if_pos heq]⟩

/-- C9 amended-claim witness: overwriting the concrete split with portion 250
and divisor 3 stores exactly those values in place. -/
theorem update_split_overwrites_in_place_witness :
    (update_split dbC9 1 250 3).payment_splits = [⟨1, 1, 250, 3, false⟩]
    ∧ (⟨1, 1, 250, 3, false⟩ : PaymentSplit)
        ∈ (update_split dbC9 1 250 3).payment_splits := by
  obtain ⟨hmap, -, -, -, -, -, -, hmem⟩ :=
    update_split_overwrites_in_place dbC9 1 250 3
  refine ⟨by rw [hmap]; simp [dbC9], ?_⟩
  have := hmem ⟨1, 1, 500, 2, false⟩ (by simp [dbC9]) rfl
  simpa using this

/-- The names of the top-level functions that lib/db.py defines, in source
order. -/
def db_module_functions : List String :=
  ["get_conn", "init_db", "add_revendedor", "update_revendedor",
   "delete_revendedor", "get_revendedores", "get_revendedor",
   "add_movimiento", "get_movimientos", "get_salidas", "get_movimiento",
   "update_movimiento", "get_balance", "_next_entrega_nro_global",
   "save_entrega", "get_entregas_historial", "get_entrega_items",
   "get_entrega", "delete_entrega"]

/-- views/detalle_revendedor.py, delete-button handler (lines 336–342): it
runs `db.delete_movimiento(mov_id)` inside try/except. `lib/db.py` defines no
`delete_movimiento`, so the attribute lookup raises AttributeError, the except
branch shows "No se pudo eliminar", and the database is left untouched: the
handler returns the unchanged state and failure. -/
def render_delete_movimiento (d : DB) (_mov_id : Nat) : DB × Bool := (d, false)

/-- C10: the ledger module provides no delete-Movement operation at all —
`delete_movimiento` is absent from lib/db.py (while `delete_entrega` and
`update_movimiento` do exist), so the view's delete button can never remove a
movement: the handler leaves every state unchanged and reports failure. -/
theorem delete_movimiento_missing :
    "delete_movimiento" ∉ db_module_functions
    ∧ "delete_entrega" ∈ db_module_functions
    ∧ "update_movimiento" ∈ db_module_functions
    ∧ ∀ (d : DB) (mid : Nat), render_delete_movimiento d mid = (d, false) := by
  exact ⟨by decide, by decide, by decide, fun d mid => rfl⟩
